import Mathlib

/-!
Verification of the Excel-to-3D-chart visualizer.

The TypeScript sources are shallowly embedded:
* `Cell`, `JSNum` and the parsing functions model spreadsheet cell values
  and the JavaScript number coercions (`parseFloat`, `Number`, `isFinite`)
  that the code applies to them.  JavaScript numeric arithmetic is modelled
  exactly over the rationals, with `nan` and the two infinities as explicit
  constructors; floating-point rounding and signed zero are idealised away.
* `processSheet` / `processWorkbook` / `processFile` embed the loading logic
  of FileUpload.tsx (`processFile`).
* `numericColumns`, `stringColumns` and `generateChart` embed
  DataPreview.tsx.
* `barHeights` embeds the bar-sizing computation of Chart3D.
* `AppState` and its handlers embed the App.tsx workflow controller, and
  `NoticeState` with `uploadNoticeStep` the success/error notices of the
  upload component.
* `Camera` and `camStep` embed the orbit/zoom camera interaction of Chart3D
  over the real numbers: the drag handler round-trips the camera position
  through spherical coordinates, so the dynamics factor through the
  spherical triple (radius, polar angle, azimuth).
-/

/-- A spreadsheet cell value as the TypeScript code sees it: a string, a
number, a boolean, or the absent value.  JavaScript `undefined` and `null`
are merged into `undef`: every test in the sources treats them identically
(`=== undefined || === null` and `!== undefined && !== null`). -/
inductive Cell where
  | str (s : String)
  | num (q : ℚ)
  | bool (b : Bool)
  | undef
deriving DecidableEq

/-- A JavaScript number: NaN, the two infinities, or a finite value.
Finite values are modelled exactly as rationals (no rounding). -/
inductive JSNum where
  | nan
  | posInf
  | negInf
  | fin (q : ℚ)
deriving DecidableEq

/-- The ASCII whitespace characters recognised by the JavaScript
`StrWhiteSpace` production (Unicode spaces are not modelled). -/
def isJsWhitespace (c : Char) : Bool :=
  c = ' ' || c = '\t' || c = '\n' || c = '\r' || c.toNat = 11 || c.toNat = 12

/-- Strip JavaScript whitespace from both ends of a character list. -/
def trimJs (cs : List Char) : List Char :=
  ((cs.dropWhile isJsWhitespace).reverse.dropWhile isJsWhitespace).reverse

/-- `String.trim` as JavaScript's `trim()` over the modelled whitespace. -/
def jsTrimString (s : String) : String :=
  String.mk (trimJs s.toList)

/-- Numeric value of a decimal digit character. -/
def digitVal (c : Char) : ℕ := c.toNat - 48

/-- Value of a list of decimal digit characters, most significant first. -/
def natOfDigits (ds : List Char) : ℕ :=
  ds.foldl (fun a c => a * 10 + digitVal c) 0

/-- Parse a JavaScript decimal literal (digits, optional fraction, optional
exponent) from the front of a character list, returning its exact rational
value and the unconsumed rest; `none` when no digits are present.  An `e`
that is not followed by digits is left unconsumed, as in `parseFloat`. -/
def parseDecimalLit (cs : List Char) : Option (ℚ × List Char) :=
  let ip := cs.takeWhile Char.isDigit
  let cs1 := cs.dropWhile Char.isDigit
  let fpRest : List Char × List Char :=
    match cs1 with
    | '.' :: t => (t.takeWhile Char.isDigit, t.dropWhile Char.isDigit)
    | _ => ([], cs1)
  let fp := fpRest.1
  let rest2 := fpRest.2
  if ip.isEmpty && fp.isEmpty then none
  else
    let mant : ℚ := (natOfDigits ip : ℚ) + (natOfDigits fp : ℚ) / ((10 : ℚ) ^ fp.length)
    match rest2 with
    | [] => some (mant, [])
    | c :: t =>
      if c = 'e' || c = 'E' then
        let signRest : Bool × List Char :=
          match t with
          | '+' :: u => (false, u)
          | '-' :: u => (true, u)
          | _ => (false, t)
        let eds := signRest.2.takeWhile Char.isDigit
        if eds.isEmpty then some (mant, rest2)
        else
          let e : ℤ := if signRest.1 then -(natOfDigits eds : ℤ) else (natOfDigits eds : ℤ)
          some (mant * (10 : ℚ) ^ e, signRest.2.dropWhile Char.isDigit)
      else some (mant, rest2)

/-- JavaScript `parseFloat` on a string: skip leading whitespace, take an
optional sign, accept an `Infinity` prefix, otherwise parse the longest
decimal-literal prefix; NaN when nothing numeric is found. -/
def parseFloatChars (cs : List Char) : JSNum :=
  let cs1 := cs.dropWhile isJsWhitespace
  let signRest : Bool × List Char :=
    match cs1 with
    | '+' :: t => (false, t)
    | '-' :: t => (true, t)
    | _ => (false, cs1)
  let neg := signRest.1
  let cs2 := signRest.2
  if cs2.take 8 = "Infinity".toList then
    if neg then JSNum.negInf else JSNum.posInf
  else
    match parseDecimalLit cs2 with
    | none => JSNum.nan
    | some qr => JSNum.fin (if neg then -qr.1 else qr.1)

/-- Value of a digit character in base `k`, when valid. -/
def radixDigitVal (k : ℕ) (c : Char) : Option ℕ :=
  let v : Option ℕ :=
    if c.isDigit then some (c.toNat - 48)
    else if 'a' ≤ c && c ≤ 'z' then some (c.toNat - 87)
    else if 'A' ≤ c && c ≤ 'Z' then some (c.toNat - 55)
    else none
  match v with
  | some n => if n < k then some n else none
  | none => none

/-- Full-string digits in base `k` (used for `Number` on `0x`/`0o`/`0b`
literals); NaN when empty or any character is invalid. -/
def parseRadix (k : ℕ) (cs : List Char) : JSNum :=
  if cs.isEmpty then JSNum.nan
  else if cs.all (fun c => (radixDigitVal k c).isSome) then
    JSNum.fin ((cs.foldl (fun a c => a * k + (radixDigitVal k c).getD 0) 0 : ℕ) : ℚ)
  else JSNum.nan

/-- JavaScript `Number` on a trimmed, non-empty decimal string: optional
sign, then either exactly `Infinity` or a decimal literal consuming the
whole string. -/
def toNumberDecimal (t : List Char) : JSNum :=
  let signRest : Bool × List Char :=
    match t with
    | '+' :: u => (false, u)
    | '-' :: u => (true, u)
    | _ => (false, t)
  let neg := signRest.1
  let t2 := signRest.2
  if t2 = "Infinity".toList then
    if neg then JSNum.negInf else JSNum.posInf
  else
    match parseDecimalLit t2 with
    | some qr => if qr.2.isEmpty then JSNum.fin (if neg then -qr.1 else qr.1) else JSNum.nan
    | none => JSNum.nan

/-- JavaScript `Number` string coercion: trim, empty means 0, unsigned
`0x`/`0o`/`0b` literals, otherwise a full-string decimal literal. -/
def toNumberChars (cs : List Char) : JSNum :=
  let t := trimJs cs
  if t.isEmpty then JSNum.fin 0
  else
    match t with
    | '0' :: x :: rest =>
      if x = 'x' || x = 'X' then parseRadix 16 rest
      else if x = 'o' || x = 'O' then parseRadix 8 rest
      else if x = 'b' || x = 'B' then parseRadix 2 rest
      else toNumberDecimal t
    | _ => toNumberDecimal t

/-- `parseFloat` applied to a cell value (the argument is first coerced to
a string: numbers print back to themselves, booleans and the absent value
print to non-numeric words). -/
def parseFloatJS : Cell → JSNum
  | Cell.str s => parseFloatChars s.toList
  | Cell.num q => JSNum.fin q
  | Cell.bool _ => JSNum.nan
  | Cell.undef => JSNum.nan

/-- `Number` coercion of a cell value. -/
def toNumberJS : Cell → JSNum
  | Cell.str s => toNumberChars s.toList
  | Cell.num q => JSNum.fin q
  | Cell.bool b => JSNum.fin (if b then 1 else 0)
  | Cell.undef => JSNum.nan

/-- Whether a JavaScript number is NaN. -/
def jsIsNaN : JSNum → Bool
  | JSNum.nan => true
  | _ => false

/-- The global `isFinite` predicate on a JavaScript number. -/
def jsIsFinite : JSNum → Bool
  | JSNum.fin _ => true
  | _ => false

/-- The numeric-cell test from DataPreview.tsx:
`!isNaN(parseFloat(value)) && isFinite(value)`. -/
def isNumericCell (c : Cell) : Bool :=
  !(jsIsNaN (parseFloatJS c)) && jsIsFinite (toNumberJS c)

/-- Digit character for a value below 10. -/
def digitChar (n : ℕ) : Char := Char.ofNat (48 + n)

/-- Decimal digits of a rational in `[0, 1)`, fuel-bounded.  Every number
the loader or parser produces has a 10-smooth denominator, for which the
expansion terminates well inside the fuel. -/
def fracDigitsAux : ℕ → ℚ → List Char
  | 0, _ => []
  | n + 1, q =>
    if q = 0 then []
    else
      let d : ℤ := Rat.floor (q * 10)
      digitChar d.toNat :: fracDigitsAux n (q * 10 - (d : ℚ))

/-- Decimal string of a non-negative rational. -/
def ratToDecimalStringNN (q : ℚ) : String :=
  let ipart : ℤ := Rat.floor q
  let ds := fracDigitsAux 64 (q - (ipart : ℚ))
  toString ipart ++ (if ds.isEmpty then "" else "." ++ String.mk ds)

/-- JavaScript `String` on a finite number, modelled as the exact decimal
expansion (JavaScript prints the shortest round-tripping decimal, which
agrees on the terminating decimals this application produces). -/
def ratToDecimalString (q : ℚ) : String :=
  if q < 0 then "-" ++ ratToDecimalStringNN (-q) else ratToDecimalStringNN q

/-- JavaScript `String(value)` on a cell. -/
def cellToString : Cell → String
  | Cell.str s => s
  | Cell.num q => ratToDecimalString q
  | Cell.bool b => if b then "true" else "false"
  | Cell.undef => "undefined"

/-! ## Tabular Loader (FileUpload.tsx, `processFile`) -/

/-- A worksheet as `XLSX.utils.sheet_to_json(ws, { header: 1 })` returns
it: a list of rows, each a list of cells. -/
abbrev Worksheet : Type := List (List Cell)

/-- A Row Record: one parsed spreadsheet row as an ordered column-name to
cell-value mapping (a JavaScript object). -/
abbrev Rec : Type := List (String × Cell)

/-- Header-name synthesis from FileUpload.tsx: empty or absent headers get
a positional `Column_` name, others are stringified and trimmed. -/
def headerName (i : ℕ) (c : Cell) : String :=
  match c with
  | Cell.undef => "Column_" ++ toString (i + 1)
  | Cell.str "" => "Column_" ++ toString (i + 1)
  | c => jsTrimString (cellToString c)

/-- The column names derived from the first row of a worksheet. -/
def headersOf (ws : Worksheet) : List String :=
  (ws.headD []).enum.map (fun p => headerName p.1 p.2)

/-- The emptiness test the loader applies to a single cell:
`cell !== undefined && cell !== null && cell !== ''`, negated. -/
def isEmptyCellB (c : Cell) : Bool :=
  match c with
  | Cell.undef => true
  | Cell.str "" => true
  | _ => false

/-- The data rows the loader keeps: everything after the header row, minus
rows with no non-empty cell. -/
def dataRowsOf (ws : Worksheet) : List (List Cell) :=
  (ws.drop 1).filter (fun row => row.any (fun c => !(isEmptyCellB c)))

/-- Number of fully-blank rows among the non-header rows. -/
def countBlankRows (ws : Worksheet) : ℕ :=
  (ws.drop 1).countP (fun row => !(row.any (fun c => !(isEmptyCellB c))))

/-- Missing-cell fill from the loader: `cellValue !== undefined &&
cellValue !== null ? cellValue : ''`. -/
def fillCell : Option Cell → Cell
  | some Cell.undef => Cell.str ""
  | some c => c
  | none => Cell.str ""

/-- JavaScript object-property assignment on an ordered key-value list:
an existing key keeps its position and gets the new value, a new key is
appended. -/
def setKey : List (String × Cell) → String → Cell → List (String × Cell)
  | [], k, v => [(k, v)]
  | p :: rest, k, v => if p.1 = k then (k, v) :: rest else p :: setKey rest k v

/-- Build one Row Record: for each header (by position) assign the row's
cell at that column, filling missing cells with the empty string. -/
def buildRecord (headers : List String) (row : List Cell) : Rec :=
  headers.enum.foldl (fun acc p => setKey acc p.2 (fillCell (row.get? p.1))) []

/-- Error message for a worksheet with no rows at all. -/
def emptyFileMessage : String := "The file appears to be empty"

/-- Error message for a worksheet with no kept data rows. -/
def noValidRowsMessage : String := "No valid data rows found in the file"

/-- Message of the TypeError thrown when `sheet_to_json` is applied to an
absent worksheet; the exact text is host-defined and never inspected. -/
def undefinedSheetMessage : String := "Cannot read properties of undefined"

/-- The loader body of FileUpload.tsx applied to one worksheet: reject an
empty sheet, take headers from the first row, keep the non-blank data rows
as records, and reject the result when no data rows remain. -/
def processSheet (ws : Worksheet) : Except String (List Rec) :=
  if ws.length = 0 then Except.error emptyFileMessage
  else
    let recs := (dataRowsOf ws).map (buildRecord (headersOf ws))
    if recs.length = 0 then Except.error noValidRowsMessage
    else Except.ok recs

/-- The loader applied to a parsed workbook: only `SheetNames[0]` is read;
with no sheets at all, `sheet_to_json` throws. -/
def processWorkbook (wb : List Worksheet) : Except String (List Rec) :=
  match wb with
  | [] => Except.error undefinedSheetMessage
  | ws :: _ => processSheet ws

/-- The whole guarded loading pipeline: a thrown `XLSX.read` surfaces as an
error value, otherwise the first worksheet is loaded. -/
def processFile (input : Except String (List Worksheet)) : Except String (List Rec) :=
  match input with
  | Except.error e => Except.error e
  | Except.ok wb => processWorkbook wb

/-- Whether an `Except` is the error case. -/
def isErr {ε α : Type} : Except ε α → Bool
  | Except.error _ => true
  | Except.ok _ => false

/-! ## Column Classifier and Chart Data Builder (DataPreview.tsx) -/

/-- JavaScript property read `row[col]` on a Row Record; `undef` models
`undefined` for an absent key. -/
def recGet (r : Rec) (k : String) : Cell :=
  match r.find? (fun p => p.1 == k) with
  | some p => p.2
  | none => Cell.undef

/-- `Object.keys(data[0])`: the column list is read off the first record. -/
def columnsOf (data : List Rec) : List String :=
  (data.headD []).map Prod.fst

/-- The numeric columns: those for which some row's value passes the
numeric-cell test. -/
def numericColumns (data : List Rec) : List String :=
  if data.length = 0 then []
  else (columnsOf data).filter (fun col => data.any (fun row => isNumericCell (recGet row col)))

/-- The text columns: every column that is not numeric. -/
def stringColumns (data : List Rec) : List String :=
  if data.length = 0 then []
  else (columnsOf data).filter (fun col => !((numericColumns data).contains col))

/-- Chart Data: the paired label/value sequences driving bar generation. -/
structure ChartDataM where
  labels : List String
  values : List JSNum
deriving DecidableEq

/-- `parseFloat(...) || 0`: NaN (and 0 itself) falls back to 0, every
other number passes through. -/
def jsOrZero : JSNum → JSNum
  | JSNum.nan => JSNum.fin 0
  | v => v

/-- The Chart Data Builder from DataPreview.tsx (`generateChart`): one
label/value pair per input row, labels stringified from the category
column, values parsed from the value column with fallback 0. -/
def generateChart (data : List Rec) (xCol yCol : String) : ChartDataM :=
  { labels := data.map (fun row => cellToString (recGet row xCol)),
    values := data.map (fun row => jsOrZero (parseFloatJS (recGet row yCol))) }

/-! ## Scene Renderer bar sizing (Chart3D) -/

/-- JavaScript `Math.max` on two numbers: NaN-propagating maximum. -/
def jsMax : JSNum → JSNum → JSNum
  | JSNum.nan, _ => JSNum.nan
  | _, JSNum.nan => JSNum.nan
  | JSNum.negInf, b => b
  | a, JSNum.negInf => a
  | JSNum.posInf, _ => JSNum.posInf
  | _, JSNum.posInf => JSNum.posInf
  | JSNum.fin a, JSNum.fin b => JSNum.fin (if a ≤ b then b else a)

/-- `Math.max(...values)`: fold from the identity `-Infinity`. -/
def jsMaxList (l : List JSNum) : JSNum :=
  l.foldl jsMax JSNum.negInf

/-- JavaScript division (signed zero idealised away: division of a nonzero
finite number by 0 takes the sign of the numerator). -/
def jsDiv : JSNum → JSNum → JSNum
  | JSNum.nan, _ => JSNum.nan
  | _, JSNum.nan => JSNum.nan
  | JSNum.fin a, JSNum.fin b =>
    if b = 0 then
      if a = 0 then JSNum.nan else if 0 < a then JSNum.posInf else JSNum.negInf
    else JSNum.fin (a / b)
  | JSNum.fin _, JSNum.posInf => JSNum.fin 0
  | JSNum.fin _, JSNum.negInf => JSNum.fin 0
  | JSNum.posInf, JSNum.fin b => if 0 ≤ b then JSNum.posInf else JSNum.negInf
  | JSNum.negInf, JSNum.fin b => if 0 ≤ b then JSNum.negInf else JSNum.posInf
  | _, _ => JSNum.nan

/-- JavaScript multiplication (signed zero idealised away). -/
def jsMul : JSNum → JSNum → JSNum
  | JSNum.nan, _ => JSNum.nan
  | _, JSNum.nan => JSNum.nan
  | JSNum.fin a, JSNum.fin b => JSNum.fin (a * b)
  | JSNum.fin a, JSNum.posInf =>
    if a = 0 then JSNum.nan else if 0 < a then JSNum.posInf else JSNum.negInf
  | JSNum.fin a, JSNum.negInf =>
    if a = 0 then JSNum.nan else if 0 < a then JSNum.negInf else JSNum.posInf
  | JSNum.posInf, JSNum.fin b =>
    if b = 0 then JSNum.nan else if 0 < b then JSNum.posInf else JSNum.negInf
  | JSNum.negInf, JSNum.fin b =>
    if b = 0 then JSNum.nan else if 0 < b then JSNum.negInf else JSNum.posInf
  | JSNum.posInf, JSNum.posInf => JSNum.posInf
  | JSNum.posInf, JSNum.negInf => JSNum.negInf
  | JSNum.negInf, JSNum.posInf => JSNum.negInf
  | JSNum.negInf, JSNum.negInf => JSNum.posInf

/-- The bar heights of Chart3D: `const maxValue = Math.max(...data.values)`
and per bar `(value / maxValue) * config.chartHeight`. -/
def barHeights (values : List JSNum) (chartHeight : ℚ) : List JSNum :=
  let maxValue := jsMaxList values
  values.map (fun v => jsMul (jsDiv v maxValue) (JSNum.fin chartHeight))

/-! ## Workflow Controller (App.tsx) -/

/-- The three workflow stages. -/
inductive Step where
  | upload
  | preview
  | chart
deriving DecidableEq

/-- Chart Configuration as in App.tsx. -/
structure ChartConfigM where
  xColumn : String
  yColumn : String
  colorScheme : String
  showGrid : Bool
  chartHeight : ℚ
deriving DecidableEq

/-- The application state held by App.tsx. -/
structure AppState where
  rawData : List Rec
  chartData : Option ChartDataM
  chartConfig : ChartConfigM
  currentStep : Step
deriving DecidableEq

/-- The initial state of App.tsx. -/
def initialAppState : AppState :=
  { rawData := [],
    chartData := none,
    chartConfig := { xColumn := "", yColumn := "", colorScheme := "blue", showGrid := true, chartHeight := 10 },
    currentStep := Step.upload }

/-- `handleFileUpload`: store the Row Records and move to preview. -/
def handleFileUpload (s : AppState) (d : List Rec) : AppState :=
  { s with rawData := d, currentStep := Step.preview }

/-- `handleDataProcess`: store Chart Data and Configuration, move to chart. -/
def handleDataProcess (s : AppState) (cd : ChartDataM) (cfg : ChartConfigM) : AppState :=
  { s with chartData := some cd, chartConfig := cfg, currentStep := Step.chart }

/-- `handleBackToUpload`: discard Row Records and Chart Data, back to upload. -/
def handleBackToUpload (s : AppState) : AppState :=
  { s with rawData := [], chartData := none, currentStep := Step.upload }

/-- `handleBackToPreview`: discard Chart Data, back to preview. -/
def handleBackToPreview (s : AppState) : AppState :=
  { s with chartData := none, currentStep := Step.preview }

/-- A partial configuration update as ChartControls passes it:
`{ ...config, ...updates }` with at most the three adjustable fields. -/
structure ConfigUpdate where
  colorScheme : Option String := none
  showGrid : Option Bool := none
  chartHeight : Option ℚ := none

/-- Object-spread merge of a partial update into a configuration. -/
def applyUpdate (c : ChartConfigM) (u : ConfigUpdate) : ChartConfigM :=
  { c with
      colorScheme := u.colorScheme.getD c.colorScheme,
      showGrid := u.showGrid.getD c.showGrid,
      chartHeight := u.chartHeight.getD c.chartHeight }

/-- A reconfiguration event while the chart is shown: ChartControls merges
the update and App stores it via `setChartConfig`. -/
def reconfigure (s : AppState) (u : ConfigUpdate) : AppState :=
  { s with chartConfig := applyUpdate s.chartConfig u }

/-! ## Upload notices (FileUpload.tsx) -/

/-- The notice state of the upload component. -/
structure NoticeState where
  error : Option String
  success : Option String
deriving DecidableEq

/-- Initial notice state: nothing shown. -/
def initialNotices : NoticeState := { error := none, success := none }

/-- The success message for a loaded file. -/
def successMessage (n : ℕ) : String :=
  "Successfully loaded " ++ toString n ++ " rows of data"

/-- The success message of the sample-data path. -/
def sampleSuccessMessage : String := "Sample data loaded successfully"

/-- Events of the upload component: a file-drop processed through the
loader, or the sample-data button. -/
inductive UploadEvent where
  | fileDrop (input : Except String (List Worksheet))
  | loadSample

/-- Notice transition of the upload component.  `processFile` starts by
clearing both notices and ends by setting exactly one of them;
`loadSampleData` only sets the success notice. -/
def uploadNoticeStep (s : NoticeState) : UploadEvent → NoticeState
  | UploadEvent.fileDrop input =>
    match processFile input with
    | Except.error e => { error := some e, success := none }
    | Except.ok d => { error := none, success := some (successMessage d.length) }
  | UploadEvent.loadSample => { error := s.error, success := some sampleSuccessMessage }

/-- Notice state after a sequence of upload events from a fresh mount. -/
def runUpload (evs : List UploadEvent) : NoticeState :=
  evs.foldl uploadNoticeStep initialNotices

/-- At most one of the two notices is present. -/
def atMostOneNotice (s : NoticeState) : Prop :=
  s.error = none ∨ s.success = none

/-- The loading-boundary event combining the loader outcome with the
workflow controller: on success the `onFileUpload` callback fires
(`handleFileUpload`), on failure only the error notice changes. -/
def processFileEvent (app : AppState) (input : Except String (List Worksheet)) :
    AppState × NoticeState :=
  match processFile input with
  | Except.error e => (app, { error := some e, success := none })
  | Except.ok d => (handleFileUpload app d, { error := none, success := some (successMessage d.length) })

/-! ## Camera interaction (Chart3D)

The drag handler reads the camera position into spherical coordinates,
shifts azimuth and polar angle, clamps the polar angle, and writes the
position back; the wheel handler scales the position and clamps its
length.  Both therefore factor through the spherical triple
(radius, polar angle, azimuth), which is what `Camera` stores.  The
arithmetic is modelled over the real numbers. -/

/-- Camera state in spherical coordinates about the origin. -/
structure Camera where
  r : ℝ
  phi : ℝ
  theta : ℝ

/-- Pointer events that move the camera. -/
inductive CamEvent where
  | drag (dx dy : ℝ)
  | wheel (deltaY : ℝ)

/-- One camera event from Chart3D: drag updates
`theta -= dx*0.01`, `phi += dy*0.01` clamped to `[0.1, pi - 0.1]`;
wheel multiplies the position by 1.1 or 0.9 and clamps its length
to `[5, 50]`. -/
noncomputable def camStep (c : Camera) : CamEvent → Camera
  | CamEvent.drag dx dy =>
    { r := c.r,
      phi := max 0.1 (min (Real.pi - 0.1) (c.phi + dy * 0.01)),
      theta := c.theta - dx * 0.01 }
  | CamEvent.wheel deltaY =>
    { r := min 50 (max 5 (c.r * (if 0 < deltaY then 1.1 else 0.9))),
      phi := c.phi,
      theta := c.theta }

/-- The initial camera position `(15, 15, 15)` in spherical coordinates:
radius `sqrt 675`, polar angle `arccos (15 / sqrt 675)`, azimuth
`atan2 15 15 = pi / 4`. -/
noncomputable def initCamera : Camera :=
  { r := Real.sqrt 675,
    phi := Real.arccos (15 / Real.sqrt 675),
    theta := Real.pi / 4 }

/-- The clamping invariant: radius within `[5, 50]` and polar angle within
`[0.1, pi - 0.1]`. -/
def CameraInv (c : Camera) : Prop :=
  5 ≤ c.r ∧ c.r ≤ 50 ∧ 0.1 ≤ c.phi ∧ c.phi ≤ Real.pi - 0.1

/-! ## Theorems -/

/-- C1: the Chart Data Builder emits exactly one label/value pair per input
row, in row order, with no deduplication or aggregation: labels are the
stringified category-column cells, values the value-column cells put
through `parseFloat` with unparseable cells mapped to 0, and both output
sequences have the length of the input (hence each other's). -/
theorem chartDataBuilder_pairs (data : List Rec) (xCol yCol : String) :
    (generateChart data xCol yCol).labels.length = data.length ∧
    (generateChart data xCol yCol).values.length = data.length ∧
    ∀ i : ℕ,
      (generateChart data xCol yCol).labels.get? i
          = (data.get? i).map (fun row => cellToString (recGet row xCol)) ∧
      (generateChart data xCol yCol).values.get? i
          = (data.get? i).map (fun row => jsOrZero (parseFloatJS (recGet row yCol))) := by
  refine ⟨by simp [generateChart], by simp [generateChart], fun i => ⟨?_, ?_⟩⟩
  · simp [generateChart, List.get?_map]
  · simp [generateChart, List.get?_map]

/-- C2: a column of the loaded records is classified numeric exactly when
some row's cell in it passes the numeric test, every other column is
classified text, and the classification is a pure function of the records
(recomputing it yields the same result). -/
theorem columnClassifier_numeric_iff (data : List Rec) (col : String)
    (h : col ∈ columnsOf data) :
    (col ∈ numericColumns data ↔ ∃ row ∈ data, isNumericCell (recGet row col) = true) ∧
    (col ∈ stringColumns data ↔ ¬ ∃ row ∈ data, isNumericCell (recGet row col) = true) ∧
    (numericColumns data, stringColumns data) = (numericColumns data, stringColumns data) := by
  have hne : data ≠ [] := by
    intro hd
    rw [hd] at h
    simp [columnsOf] at h
  have hlen : ¬ data.length = 0 := by simpa [List.length_eq_zero] using hne
  have hiff : col ∈ numericColumns data ↔ ∃ row ∈ data, isNumericCell (recGet row col) = true := by
    simp only [numericColumns, if_neg hlen, List.mem_filter, List.any_eq_true]
    exact ⟨fun hx => hx.2, fun hx => ⟨h, hx⟩⟩
  refine ⟨hiff, ?_, rfl⟩
  simp only [stringColumns, if_neg hlen, List.mem_filter]
  constructor
  · rintro ⟨-, hc⟩ hex
    have : col ∈ numericColumns data := hiff.mpr hex
    simp [List.contains, this] at hc
  · intro hex
    refine ⟨h, ?_⟩
    have : col ∉ numericColumns data := fun hc => hex (hiff.mp hc)
    simp [List.contains, this]

/-- Witness for C2: on a one-row table, the numeric-cell column is
classified numeric and the text column is classified text. -/
theorem columnClassifier_numeric_iff_witness :
    "Q1" ∈ numericColumns [[("Product", Cell.str "Laptops"), ("Q1", Cell.num 120)]] ∧
    "Product" ∈ stringColumns [[("Product", Cell.str "Laptops"), ("Q1", Cell.num 120)]] :=
  ⟨(columnClassifier_numeric_iff _ "Q1" (by decide)).1.mpr
      ⟨[("Product", Cell.str "Laptops"), ("Q1", Cell.num 120)], by decide, by decide⟩,
   (columnClassifier_numeric_iff _ "Product" (by decide)).2.1.mpr (by decide)⟩

/-- C7: from the initial state, loading a file (upload to preview) and then
going back (preview to upload) restores the initial empty state exactly:
no residual Row Records, no residual Chart Data, step is upload. -/
theorem workflow_roundtrip (d : List Rec) :
    handleBackToUpload (handleFileUpload initialAppState d) = initialAppState := rfl

/-- C8: a reconfiguration event received in the chart state only changes
the Chart Configuration: the step stays chart and the stored Row Records
and Chart Data are untouched. -/
theorem reconfigure_frame (s : AppState) (u : ConfigUpdate) (h : s.currentStep = Step.chart) :
    (reconfigure s u).currentStep = Step.chart ∧
    (reconfigure s u).rawData = s.rawData ∧
    (reconfigure s u).chartData = s.chartData ∧
    (reconfigure s u).chartConfig = applyUpdate s.chartConfig u :=
  ⟨h, rfl, rfl, rfl⟩

/-- Witness for C8 at a concrete chart-state configuration change. -/
theorem reconfigure_frame_witness :
    (reconfigure { initialAppState with currentStep := Step.chart }
        { colorScheme := some "red" }).currentStep = Step.chart ∧
    (reconfigure { initialAppState with currentStep := Step.chart }
        { colorScheme := some "red" }).rawData = [] :=
  ⟨(reconfigure_frame { initialAppState with currentStep := Step.chart }
      { colorScheme := some "red" } (by rfl)).1,
   (reconfigure_frame { initialAppState with currentStep := Step.chart }
      { colorScheme := some "red" } (by rfl)).2.1⟩

/-- C10: the loader reads only the first worksheet of the workbook: two
workbooks with the same first worksheet load identically, whatever the
remaining worksheets are. -/
theorem firstWorksheet_only (wb1 wb2 : List Worksheet) (h : wb1.head? = wb2.head?) :
    processWorkbook wb1 = processWorkbook wb2 := by
  cases wb1 with
  | nil =>
    cases wb2 with
    | nil => rfl
    | cons w2 t2 => simp [List.head?] at h
  | cons w t =>
    cases wb2 with
    | nil => simp [List.head?] at h
    | cons w2 t2 =>
      simp only [List.head?, Option.some.injEq] at h
      rw [h]
      rfl

/-- Witness for C10: dropping a second worksheet does not change the load
result. -/
theorem firstWorksheet_only_witness :
    processWorkbook [[[Cell.str "A"], [Cell.str "x"]], [[Cell.str "IGNORED"]]] =
      processWorkbook [[[Cell.str "A"], [Cell.str "x"]]] :=
  firstWorksheet_only _ _ (by rfl)

/-- Counting a predicate and its negation covers the whole list. -/
theorem countP_add_countP_not {α : Type} (l : List α) (p : α → Bool) :
    l.countP p + l.countP (fun a => !(p a)) = l.length := by
  induction l with
  | nil => simp
  | cons a t ih =>
    by_cases hp : p a = true
    · simp [List.countP_cons, hp]
      omega
    · simp only [Bool.not_eq_true] at hp
      simp [List.countP_cons, hp]
      omega

/-- After `setKey l k v`, the key `k` is present. -/
theorem find?_setKey_self (l : List (String × Cell)) (k : String) (v : Cell) :
    ((setKey l k v).find? (fun p => p.1 == k)).isSome = true := by
  induction l with
  | nil => simp [setKey, List.find?]
  | cons p rest ih =>
    by_cases h : p.1 = k
    · simp [setKey, h, List.find?]
    · simp only [setKey, if_neg h]
      rw [List.find?_cons]
      have : (p.1 == k) = false := by simpa using h
      rw [this]
      exact ih

/-- `setKey` preserves the presence of every key. -/
theorem find?_setKey_preserve (l : List (String × Cell)) (k k' : String) (v : Cell)
    (h : ((l.find? (fun p => p.1 == k')).isSome) = true) :
    ((setKey l k v).find? (fun p => p.1 == k')).isSome = true := by
  induction l with
  | nil => simp [List.find?] at h
  | cons p rest ih =>
    by_cases hk : p.1 = k
    · subst hk
      by_cases hk' : p.1 = k'
      · simp [setKey, List.find?, hk', beq_self_eq_true]
      · have hb : (p.1 == k') = false := by simpa using hk'
        simp only [List.find?_cons, hb] at h
        have hgoal : setKey (p :: rest) p.1 v = (p.1, v) :: rest := by
          simp [setKey]
        rw [hgoal]
        simp only [List.find?_cons, hb]
        simpa using h
    · simp only [setKey, if_neg hk]
      rw [List.find?_cons] at h ⊢
      by_cases hk' : p.1 = k'
      · have hb : (p.1 == k') = true := by simpa using hk'
        rw [hb] at h ⊢
        exact h
      · have hb : (p.1 == k') = false := by simpa using hk'
        rw [hb] at h ⊢
        exact ih h

/-- Every pair of `setKey l k v` comes from `l` or carries the value `v`. -/
theorem mem_setKey (l : List (String × Cell)) (k : String) (v : Cell)
    (p : String × Cell) (h : p ∈ setKey l k v) : p ∈ l ∨ p.2 = v := by
  induction l with
  | nil =>
    simp [setKey] at h
    rw [h]
    right
    rfl
  | cons q rest ih =>
    by_cases hq : q.1 = k
    · simp only [setKey, if_pos hq, List.mem_cons] at h
      rcases h with h | h
      · right
        rw [h]
      · left
        exact List.mem_cons_of_mem _ h
    · simp only [setKey, if_neg hq, List.mem_cons] at h
      rcases h with h | h
      · left
        rw [h]
        exact List.mem_cons_self _ _
      · rcases ih h with h2 | h2
        · left
          exact List.mem_cons_of_mem _ h2
        · right
          exact h2

/-- After folding the header assignments, every header named in the
remaining list, and every key already present, is a key of the record. -/
theorem foldl_setKey_hasKey (row : List Cell) (k : String) :
    ∀ (ps : List (ℕ × String)) (acc : List (String × Cell)),
      (k ∈ ps.map Prod.snd ∨ ((acc.find? (fun p => p.1 == k)).isSome) = true) →
      (((ps.foldl (fun a q => setKey a q.2 (fillCell (row.get? q.1))) acc).find?
          (fun p => p.1 == k)).isSome) = true := by
  intro ps
  induction ps with
  | nil =>
    intro acc h
    rcases h with h | h
    · simp at h
    · simpa using h
  | cons q t ih =>
    intro acc h
    simp only [List.foldl_cons]
    apply ih
    rcases h with h | h
    · simp only [List.map_cons, List.mem_cons] at h
      rcases h with h | h
      · right
        rw [← h]
        exact find?_setKey_self _ _ _
      · left
        exact h
    · right
      exact find?_setKey_preserve _ _ _ _ h

/-- Every header is a key of the record built for a row. -/
theorem buildRecord_hasKey (headers : List String) (row : List Cell) (k : String)
    (hk : k ∈ headers) :
    (((buildRecord headers row).find? (fun p => p.1 == k)).isSome) = true := by
  apply foldl_setKey_hasKey row k headers.enum []
  left
  rw [List.enum_map_snd]
  exact hk

/-- The fill never stores the absent value. -/
theorem fillCell_ne_undef (o : Option Cell) : fillCell o ≠ Cell.undef := by
  match o with
  | none => simp [fillCell]
  | some Cell.undef => simp [fillCell]
  | some (Cell.str s) => simp [fillCell]
  | some (Cell.num q) => simp [fillCell]
  | some (Cell.bool b) => simp [fillCell]

/-- No value of a built record is the absent value: missing cells are
filled with the empty string instead of being omitted. -/
theorem buildRecord_vals (headers : List String) (row : List Cell)
    (p : String × Cell) (hp : p ∈ buildRecord headers row) : p.2 ≠ Cell.undef := by
  have aux : ∀ (ps : List (ℕ × String)) (acc : List (String × Cell)),
      (∀ q ∈ acc, q.2 ≠ Cell.undef) →
      ∀ q ∈ ps.foldl (fun a e => setKey a e.2 (fillCell (row.get? e.1))) acc,
        q.2 ≠ Cell.undef := by
    intro ps
    induction ps with
    | nil =>
      intro acc hacc q hq
      exact hacc q hq
    | cons e t ih =>
      intro acc hacc q hq
      refine ih _ ?_ q hq
      intro q' hq'
      rcases mem_setKey _ _ _ _ hq' with h | h
      · exact hacc q' h
      · rw [h]
        exact fillCell_ne_undef _
  exact aux headers.enum [] (by intro q hq; simp at hq) p hp

/-- Characterisation of a successful sheet load. -/
theorem processSheet_ok (ws : Worksheet) (recs : List Rec)
    (h : processSheet ws = Except.ok recs) :
    recs = (dataRowsOf ws).map (buildRecord (headersOf ws)) := by
  by_cases h0 : ws.length = 0
  · simp [processSheet, h0] at h
  · by_cases h1 : dataRowsOf ws = []
    · simp [processSheet, h0, h1] at h
    · simp [processSheet, h0, h1] at h
      exact h.symm

/-- A sheet load fails exactly when no data rows survive. -/
theorem processSheet_isErr (ws : Worksheet) :
    isErr (processSheet ws) = true ↔ dataRowsOf ws = [] := by
  by_cases h0 : ws.length = 0
  · have hws : ws = [] := by simpa [List.length_eq_zero] using h0
    subst hws
    simp [processSheet, isErr, dataRowsOf]
  · by_cases h1 : ((dataRowsOf ws).map (buildRecord (headersOf ws))).length = 0
    · have : (dataRowsOf ws).length = 0 := by simpa using h1
      simp [processSheet, h0, h1, isErr, List.length_eq_zero.mp this]
    · have : ¬ dataRowsOf ws = [] := by
        intro he
        rw [he] at h1
        simp at h1
      simp [processSheet, h0, h1, isErr, this]

/-- C5: on every successful load, the number of Row Records equals the
number of input rows minus the header row minus the fully-blank data rows;
moreover every Row Record has a key for every column, and no record value
is the absent value (missing cells are filled with the empty string). -/
theorem loader_row_accounting (ws : Worksheet) (recs : List Rec)
    (h : processSheet ws = Except.ok recs) :
    recs.length = ws.length - 1 - countBlankRows ws ∧
    (∀ rec ∈ recs, ∀ k ∈ headersOf ws, ((rec.find? (fun p => p.1 == k)).isSome) = true) ∧
    (∀ rec ∈ recs, ∀ p ∈ rec, p.2 ≠ Cell.undef) := by
  have hrec := processSheet_ok ws recs h
  subst hrec
  refine ⟨?_, ?_, ?_⟩
  · rw [List.length_map]
    have hcount := countP_add_countP_not (ws.drop 1)
      (fun row => row.any (fun c => !(isEmptyCellB c)))
    have hfil : (dataRowsOf ws).length
        = (ws.drop 1).countP (fun row => row.any (fun c => !(isEmptyCellB c))) := by
      rw [dataRowsOf, ← List.countP_eq_length_filter]
    have hdrop : (ws.drop 1).length = ws.length - 1 := List.length_drop 1 ws
    rw [hfil, countBlankRows]
    omega
  · intro rec hrec k hk
    rcases List.mem_map.mp hrec with ⟨row, hrow, hh⟩
    rw [← hh]
    exact buildRecord_hasKey _ _ _ hk
  · intro rec hrec p hp
    rcases List.mem_map.mp hrec with ⟨row, hrow, hh⟩
    rw [← hh] at hp
    exact buildRecord_vals _ _ _ hp

/-- Witness for C5: a four-row sheet (header, one short row, one blank row,
one full row) loads to two records, `4 - 1 - 1`, with both keys present in
each record. -/
theorem loader_row_accounting_witness :
    ([[("A", Cell.str "x"), ("B", Cell.str "")],
      [("A", Cell.num 1), ("B", Cell.str "y")]] : List Rec).length
        = ([[Cell.str "A", Cell.str "B"], [Cell.str "x"],
            [Cell.str "", Cell.undef], [Cell.num 1, Cell.str "y"]] : Worksheet).length
            - 1 - countBlankRows [[Cell.str "A", Cell.str "B"], [Cell.str "x"],
                [Cell.str "", Cell.undef], [Cell.num 1, Cell.str "y"]] :=
  (loader_row_accounting
    [[Cell.str "A", Cell.str "B"], [Cell.str "x"],
      [Cell.str "", Cell.undef], [Cell.num 1, Cell.str "y"]]
    [[("A", Cell.str "x"), ("B", Cell.str "")],
      [("A", Cell.num 1), ("B", Cell.str "y")]] (by rfl)).1

/-- C4: loading fails exactly when the parse throws or the first worksheet
yields zero data rows; a failure is caught, sets only the error notice and
leaves the application state (in particular the upload step) untouched,
while the file-loaded transition to preview fires only on success. -/
theorem loadError_boundary (input : Except String (List Worksheet)) (app : AppState) :
    (isErr (processFile input) = true ↔
      (isErr input = true ∨ ∃ wb, input = Except.ok wb ∧ dataRowsOf (wb.headD []) = [])) ∧
    (isErr (processFile input) = true →
      (processFileEvent app input).1 = app ∧
      (processFileEvent app input).2.error.isSome = true ∧
      (processFileEvent app input).2.success = none) ∧
    (isErr (processFile input) = false →
      (processFileEvent app input).1.currentStep = Step.preview ∧
      (processFileEvent app input).2.error = none) := by
  refine ⟨?_, ?_, ?_⟩
  · match input with
    | Except.error e => simp [processFile, isErr]
    | Except.ok wb =>
      match wb with
      | [] => simp [processFile, processWorkbook, isErr, dataRowsOf]
      | ws :: rest =>
        simp only [processFile, processWorkbook, isErr, List.headD]
        constructor
        · intro he
          right
          exact ⟨ws :: rest, rfl, (processSheet_isErr ws).mp he⟩
        · rintro (he | ⟨wb2, hwb, hrows⟩)
          · simp at he
          · have : wb2 = ws :: rest := by
              injection hwb with hw
              exact hw.symm
            rw [this] at hrows
            simp only [List.headD] at hrows
            exact (processSheet_isErr ws).mpr hrows
  · intro he
    match hpf : processFile input with
    | Except.error e => simp [processFileEvent, hpf]
    | Except.ok d => rw [hpf] at he; simp [isErr] at he
  · intro he
    match hpf : processFile input with
    | Except.error e => rw [hpf] at he; simp [isErr] at he
    | Except.ok d => simp [processFileEvent, hpf, handleFileUpload]

/-- Witness for C4: a header-only sheet fails and leaves the initial state
in place with an error notice shown. -/
theorem loadError_boundary_witness :
    (processFileEvent initialAppState (Except.ok [[[Cell.str "A"]]])).1 = initialAppState ∧
    (processFileEvent initialAppState (Except.ok [[[Cell.str "A"]]])).2.error.isSome = true :=
  ⟨((loadError_boundary (Except.ok [[[Cell.str "A"]]]) initialAppState).2.1 (by rfl)).1,
   ((loadError_boundary (Except.ok [[[Cell.str "A"]]]) initialAppState).2.1 (by rfl)).2.1⟩

/-- Counterexample to C3 as stated: for the non-empty Chart Data whose only
value is 0 (reachable from a numeric column that is all zeros), the bar
holding the maximum value gets height `(0 / 0) * 10`, which is NaN, not the
configured height factor 10. -/
theorem barHeights_counterexample :
    jsMaxList [JSNum.fin 0] = JSNum.fin 0 ∧
    (barHeights [JSNum.fin 0] 10).get? 0 = some JSNum.nan ∧
    JSNum.nan ≠ JSNum.fin 10 := by
  refine ⟨rfl, rfl, ?_⟩
  intro h
  cases h

/-- C3 amended: whenever the maximum chart value is a nonzero finite
number, every finite bar value `v` yields the bar height
`(v / max) * heightFactor`, and in particular every bar holding the
maximum value has height exactly the configured height factor.  (When the
maximum is zero, i.e. all values are zero, the height is NaN instead.) -/
theorem barHeights_normalization (values : List JSNum) (hfac m : ℚ)
    (hmax : jsMaxList values = JSNum.fin m) (hm : m ≠ 0) :
    (∀ i : ℕ, ∀ v : ℚ, values.get? i = some (JSNum.fin v) →
      (barHeights values hfac).get? i = some (JSNum.fin (v / m * hfac))) ∧
    (∀ i : ℕ, values.get? i = some (JSNum.fin m) →
      (barHeights values hfac).get? i = some (JSNum.fin hfac)) := by
  have hstep : ∀ v : ℚ,
      jsMul (jsDiv (JSNum.fin v) (JSNum.fin m)) (JSNum.fin hfac)
        = JSNum.fin (v / m * hfac) := by
    intro v
    simp [jsDiv, jsMul, hm]
  have hfirst : ∀ i : ℕ, ∀ v : ℚ, values.get? i = some (JSNum.fin v) →
      (barHeights values hfac).get? i = some (JSNum.fin (v / m * hfac)) := by
    intro i v hv
    simp only [barHeights, hmax, List.get?_map, hv]
    simpa using hstep v
  refine ⟨hfirst, ?_⟩
  intro i hv
  have := hfirst i m hv
  rwa [div_self hm, one_mul] at this

/-- Witness for C3 amended: a single bar of value 2 with height factor 10
gets height exactly 10. -/
theorem barHeights_normalization_witness :
    (barHeights [JSNum.fin 2] 10).get? 0 = some (JSNum.fin 10) :=
  (barHeights_normalization [JSNum.fin 2] 10 2 (by rfl) (by norm_num)).2 0 (by rfl)

/-- Counterexample to C6 as stated: after a failed file drop followed by
the sample-data button, both the error and the success notice are set:
`loadSampleData` sets the success notice without clearing a previous
error. -/
theorem notices_counterexample :
    ¬ atMostOneNotice
        (runUpload [UploadEvent.fileDrop (Except.ok [[[Cell.str "A"]]]),
          UploadEvent.loadSample]) := by
  intro h
  rcases h with h | h
  · exact Option.noConfusion h
  · exact Option.noConfusion h

/-- C6 amended: every file-drop attempt first clears both notices (its
outcome does not depend on the previously shown notices) and ends with
exactly one notice set; the sample-data button, however, only sets the
success notice, so it preserves mutual exclusion only when no error notice
is currently shown. -/
theorem notices_amended (s : NoticeState) (input : Except String (List Worksheet)) :
    atMostOneNotice (uploadNoticeStep s (UploadEvent.fileDrop input)) ∧
    uploadNoticeStep s (UploadEvent.fileDrop input)
      = uploadNoticeStep initialNotices (UploadEvent.fileDrop input) ∧
    (s.error = none → atMostOneNotice (uploadNoticeStep s UploadEvent.loadSample)) := by
  refine ⟨?_, ?_, ?_⟩
  · match hpf : processFile input with
    | Except.error e => simp [uploadNoticeStep, hpf, atMostOneNotice]
    | Except.ok d => simp [uploadNoticeStep, hpf, atMostOneNotice]
  · match hpf : processFile input with
    | Except.error e => simp [uploadNoticeStep, hpf]
    | Except.ok d => simp [uploadNoticeStep, hpf]
  · intro he
    left
    simp [uploadNoticeStep, he]

/-- Witness for C6 amended at a concrete failing drop and a sample load
from a clean state. -/
theorem notices_amended_witness :
    atMostOneNotice
      (uploadNoticeStep { error := none, success := some sampleSuccessMessage }
        (UploadEvent.fileDrop (Except.ok [[[Cell.str "A"]]]))) ∧
    atMostOneNotice
      (uploadNoticeStep { error := none, success := some sampleSuccessMessage }
        UploadEvent.loadSample) :=
  ⟨(notices_amended { error := none, success := some sampleSuccessMessage }
      (Except.ok [[[Cell.str "A"]]])).1,
   (notices_amended { error := none, success := some sampleSuccessMessage }
      (Except.ok [[[Cell.str "A"]]])).2.2 (by rfl)⟩

/-- Every camera event re-establishes the clamping invariant. -/
theorem camStep_inv (c : Camera) (e : CamEvent) (h : CameraInv c) :
    CameraInv (camStep c e) := by
  have hpi : (3 : ℝ) < Real.pi := Real.pi_gt_three
  cases e with
  | drag dx dy =>
    refine ⟨h.1, h.2.1, le_max_left _ _, ?_⟩
    have h1 : (0.1 : ℝ) ≤ Real.pi - 0.1 := by linarith
    exact max_le h1 (min_le_left _ _)
  | wheel deltaY =>
    refine ⟨?_, ?_, h.2.2.1, h.2.2.2⟩
    · exact le_min (by norm_num) (le_max_left _ _)
    · exact min_le_left _ _

/-- The initial camera position `(15, 15, 15)` satisfies the invariant:
its radius is `sqrt 675`, between 5 and 50, and its polar angle is
`arccos (15 / sqrt 675)`, strictly between `pi / 4` and `pi / 2`. -/
theorem initCamera_inv : CameraInv initCamera := by
  have hpi : (3 : ℝ) < Real.pi := Real.pi_gt_three
  have hs5 : (5 : ℝ) ≤ Real.sqrt 675 := by
    have h1 : Real.sqrt 25 ≤ Real.sqrt 675 := Real.sqrt_le_sqrt (by norm_num)
    have h2 : Real.sqrt 25 = 5 := by
      rw [show (25 : ℝ) = 5 ^ 2 by norm_num, Real.sqrt_sq (by norm_num : (0:ℝ) ≤ 5)]
    linarith
  have hs50 : Real.sqrt 675 ≤ 50 := by
    have h1 : Real.sqrt 675 ≤ Real.sqrt 2500 := Real.sqrt_le_sqrt (by norm_num)
    have h2 : Real.sqrt 2500 = 50 := by
      rw [show (2500 : ℝ) = 50 ^ 2 by norm_num, Real.sqrt_sq (by norm_num : (0:ℝ) ≤ 50)]
    linarith
  have hspos : (0 : ℝ) < Real.sqrt 675 := by linarith
  refine ⟨hs5, hs50, ?_, ?_⟩
  · have hlt : 15 / Real.sqrt 675 < Real.sqrt 2 / 2 := by
      rw [div_lt_div_iff hspos (by norm_num : (0:ℝ) < 2)]
      have hmul : Real.sqrt 2 * Real.sqrt 675 = Real.sqrt 1350 := by
        rw [← Real.sqrt_mul (by norm_num : (0:ℝ) ≤ 2)]
        norm_num
      have h900 : Real.sqrt 900 < Real.sqrt 1350 := Real.sqrt_lt_sqrt (by norm_num) (by norm_num)
      have h30 : Real.sqrt 900 = 30 := by
        rw [show (900 : ℝ) = 30 ^ 2 by norm_num, Real.sqrt_sq (by norm_num : (0:ℝ) ≤ 30)]
      rw [hmul]
      linarith
    have harc : Real.pi / 4 < Real.arccos (15 / Real.sqrt 675) := by
      by_contra hcon
      push_neg at hcon
      exact absurd (Real.arccos_le_pi_div_four.mp hcon) (by linarith)
    show 0.1 ≤ initCamera.phi
    have : initCamera.phi = Real.arccos (15 / Real.sqrt 675) := rfl
    rw [this]
    linarith
  · have hnn : (0 : ℝ) ≤ 15 / Real.sqrt 675 := by positivity
    have hhalf : Real.arccos (15 / Real.sqrt 675) ≤ Real.pi / 2 :=
      Real.arccos_le_pi_div_two.mpr hnn
    show initCamera.phi ≤ Real.pi - 0.1
    have : initCamera.phi = Real.arccos (15 / Real.sqrt 675) := rfl
    rw [this]
    linarith

/-- C9: starting from the initial camera position, after any sequence of
drag and wheel events the camera's polar angle stays within
`[0.1, pi - 0.1]` and its distance from the origin stays within `[5, 50]`. -/
theorem camera_clamping (evs : List CamEvent) :
    CameraInv (evs.foldl camStep initCamera) := by
  have aux : ∀ (l : List CamEvent) (c : Camera), CameraInv c → CameraInv (l.foldl camStep c) := by
    intro l
    induction l with
    | nil => intro c h; exact h
    | cons e t ih =>
      intro c h
      exact ih _ (camStep_inv c e h)
  exact aux evs initCamera initCamera_inv







